import Mathlib

/-!
Verification of the technical-indicator scripts in
`skills/technical-indicators/scripts/` (sma.py, ema.py, macd.py, rsi.py,
adx.py, atr.py, bollinger_bands.py, stochastic.py, vwap.py,
historical_volatility.py, pivot_points.py).

The scripts compute over IEEE doubles via pandas/numpy.  The embedding
models finite float values exactly as rationals and models the special
values produced by the scripts' unguarded divisions (NaN, plus/minus
infinity) with an explicit inductive type `FVal` that follows the IEEE
rules for the operations the scripts use.  Python's `round` (banker's
rounding at a decimal-place count) is modelled by `roundTo`.
-/

set_option maxRecDepth 8192

namespace TechInd

/-- Python `round(x)` behaviour on exact values: round half to even. -/
def roundHalfEven (q : ℚ) : ℤ :=
  if q - ⌊q⌋ < 1/2 then ⌊q⌋
  else if (1:ℚ)/2 < q - ⌊q⌋ then ⌊q⌋ + 1
  else if ⌊q⌋ % 2 = 0 then ⌊q⌋ else ⌊q⌋ + 1

/-- Python `round(x, n)`: round half to even at `n` decimal places. -/
def roundTo (n : ℕ) (q : ℚ) : ℚ :=
  (roundHalfEven (q * 10 ^ n) : ℚ) / 10 ^ n

theorem roundHalfEven_intCast (z : ℤ) : roundHalfEven (z : ℚ) = z := by
  simp [roundHalfEven]

theorem roundTo_cast_div_pow (n : ℕ) (z : ℤ) :
    roundTo n ((z : ℚ) / 10 ^ n) = (z : ℚ) / 10 ^ n := by
  have h : ((z : ℚ) / 10 ^ n) * 10 ^ n = (z : ℚ) := by
    field_simp
  rw [roundTo, h, roundHalfEven_intCast]

theorem roundTo_intCast (n : ℕ) (z : ℤ) : roundTo n (z : ℚ) = z := by
  have h : ((z : ℚ)) * 10 ^ n = ((z * 10 ^ n : ℤ) : ℚ) := by push_cast; ring
  rw [roundTo, h, roundHalfEven_intCast]
  field_simp

/-- IEEE-double-like value: an exact finite rational, an infinity, or NaN.
Captures the special values the scripts produce through division by zero
in pandas/numpy expressions. -/
inductive FVal where
  | nan : FVal
  | pinf : FVal
  | ninf : FVal
  | fin (q : ℚ) : FVal
deriving DecidableEq

namespace FVal

def add : FVal → FVal → FVal
  | nan, _ => nan
  | _, nan => nan
  | pinf, ninf => nan
  | ninf, pinf => nan
  | pinf, _ => pinf
  | _, pinf => pinf
  | ninf, _ => ninf
  | _, ninf => ninf
  | fin a, fin b => fin (a + b)

def neg : FVal → FVal
  | nan => nan
  | pinf => ninf
  | ninf => pinf
  | fin a => fin (-a)

def sub (a b : FVal) : FVal := add a (neg b)

def mul : FVal → FVal → FVal
  | nan, _ => nan
  | _, nan => nan
  | pinf, pinf => pinf
  | pinf, ninf => ninf
  | ninf, pinf => ninf
  | ninf, ninf => pinf
  | pinf, fin b => if 0 < b then pinf else if b < 0 then ninf else nan
  | fin a, pinf => if 0 < a then pinf else if a < 0 then ninf else nan
  | ninf, fin b => if 0 < b then ninf else if b < 0 then pinf else nan
  | fin a, ninf => if 0 < a then ninf else if a < 0 then pinf else nan
  | fin a, fin b => fin (a * b)

/-- numpy-style division: finite/0 gives a signed infinity, 0/0 gives NaN. -/
def div : FVal → FVal → FVal
  | nan, _ => nan
  | _, nan => nan
  | pinf, pinf => nan
  | pinf, ninf => nan
  | ninf, pinf => nan
  | ninf, ninf => nan
  | pinf, fin b => if 0 ≤ b then pinf else ninf
  | ninf, fin b => if 0 ≤ b then ninf else pinf
  | fin _, pinf => fin 0
  | fin _, ninf => fin 0
  | fin a, fin b =>
      if b = 0 then (if a = 0 then nan else if 0 < a then pinf else ninf)
      else fin (a / b)

/-- Strict less-than as IEEE compares: any comparison with NaN is false. -/
def ltb : FVal → FVal → Bool
  | fin a, fin b => decide (a < b)
  | ninf, fin _ => true
  | ninf, pinf => true
  | fin _, pinf => true
  | _, _ => false

def leb : FVal → FVal → Bool
  | fin a, fin b => decide (a ≤ b)
  | ninf, fin _ => true
  | ninf, pinf => true
  | ninf, ninf => true
  | fin _, pinf => true
  | pinf, pinf => true
  | _, _ => false

def gtb (a b : FVal) : Bool := ltb b a

def geb (a b : FVal) : Bool := leb b a

/-- Python `round(x, n)` on a float: NaN and infinities pass through. -/
def roundF (n : ℕ) : FVal → FVal
  | fin q => fin (roundTo n q)
  | x => x

theorem ltb_nan_left (a : FVal) : ltb nan a = false := by cases a <;> rfl

theorem ltb_nan_right (a : FVal) : ltb a nan = false := by cases a <;> rfl

theorem leb_nan_left (a : FVal) : leb nan a = false := by cases a <;> rfl

theorem leb_nan_right (a : FVal) : leb a nan = false := by cases a <;> rfl

theorem add_nan_left (a : FVal) : add nan a = nan := by cases a <;> rfl

theorem add_nan_right (a : FVal) : add a nan = nan := by cases a <;> rfl

end FVal

/-- Sum of a list of float values, as pandas accumulates a window. -/
def fsum (l : List FVal) : FVal := l.foldl FVal.add (FVal.fin 0)

theorem foldl_add_of_nan_acc (l : List FVal) :
    l.foldl FVal.add FVal.nan = FVal.nan := by
  induction l with
  | nil => rfl
  | cons x xs ih => simpa [FVal.add_nan_left] using ih

theorem foldl_add_eq_nan_of_mem (l : List FVal) (acc : FVal) (h : FVal.nan ∈ l) :
    l.foldl FVal.add acc = FVal.nan := by
  induction l generalizing acc with
  | nil => cases h
  | cons x xs ih =>
    rcases List.mem_cons.mp h with h1 | h1
    · subst h1
      simpa [FVal.add_nan_right] using foldl_add_of_nan_acc xs
    · exact ih (acc.add x) h1

theorem fsum_eq_nan_of_mem (l : List FVal) (h : FVal.nan ∈ l) :
    fsum l = FVal.nan :=
  foldl_add_eq_nan_of_mem l (FVal.fin 0) h

/-- OHLC candle as consumed by adx.py, stochastic.py, pivot_points.py.
atr.py additionally checks for an `open` field but never reads it, so it
is not modelled. -/
structure Candle where
  high : ℚ
  low : ℚ
  close : ℚ
deriving DecidableEq

/-- OHLCV candle as consumed by vwap.py. -/
structure CandleV where
  high : ℚ
  low : ℚ
  close : ℚ
  volume : ℚ
deriving DecidableEq

/-- `series.iloc[-1]` on a nonempty series (`l.getD (l.length - 1) d`). -/
def lastD (l : List ℚ) (d : ℚ) : ℚ := l.getD (l.length - 1) d

/-- Last `w` entries of a list: the final rolling window. -/
def lastWindow (l : List ℚ) (w : ℕ) : List ℚ := l.drop (l.length - w)

/-- Minimum of a nonempty numeric list (0 as junk value on `[]`). -/
def qListMin : List ℚ → ℚ
  | [] => 0
  | x :: xs => xs.foldl min x

/-- Maximum of a nonempty numeric list (0 as junk value on `[]`). -/
def qListMax : List ℚ → ℚ
  | [] => 0
  | x :: xs => xs.foldl max x

/-- Candle at position `i` (`df.loc[i]`); junk candle out of range. -/
def cAt (candles : List Candle) (i : ℕ) : Candle :=
  candles.getD i ⟨0, 0, 0⟩

/-! ## sma.py -/

structure SmaOut where
  sma : ℚ
  period : ℕ
deriving DecidableEq

/-- Embeds `calculate_sma` of sma.py. -/
def calculate_sma (prices : List ℚ) (period : ℕ) : Except String SmaOut :=
  let n := prices.length
  if n < period then
    .error ("Need at least " ++ toString period ++ " prices, got " ++ toString n)
  else
    .ok { sma := roundTo 2 ((lastWindow prices period).sum / period),
          period := period }

/-! ## ema.py -/

structure EmaOut where
  ema : ℚ
  period : ℕ
  current_price : ℚ
  price_trend : String
deriving DecidableEq

/-- `pandas.Series.ewm(span, adjust=False).mean()` tail recursion:
`y_t = (1 - alpha) * y_(t-1) + alpha * x_t`. -/
def ewmAux (alpha : ℚ) (acc : ℚ) : List ℚ → List ℚ
  | [] => []
  | x :: xs =>
      let y := (1 - alpha) * acc + alpha * x
      y :: ewmAux alpha y xs

/-- `pandas.Series.ewm(span, adjust=False).mean()`: seeded with the first
value, then the exponential recurrence. -/
def ewmMean (alpha : ℚ) : List ℚ → List ℚ
  | [] => []
  | x :: xs => x :: ewmAux alpha x xs

/-- `alpha = 2 / (span + 1)` for `ewm(span=...)`. -/
def spanAlpha (span : ℕ) : ℚ := 2 / ((span : ℚ) + 1)

/-- Embeds `calculate_ema` of ema.py.  The `smoothing` argument is
accepted (as in the source, where it is exposed as `--smoothing`) and,
as in the source, never read. -/
def calculate_ema (prices : List ℚ) (period : ℕ) (smoothing : ℚ) :
    Except String EmaOut :=
  let n := prices.length
  if n < period then
    .error ("Need at least " ++ toString period ++ " prices, got " ++ toString n)
  else
    let ema_value := lastD (ewmMean (spanAlpha period) prices) 0
    let current_price := lastD prices 0
    let trend :=
      if ema_value < current_price then "above_ema"
      else if current_price < ema_value then "below_ema"
      else "at_ema"
    .ok { ema := roundTo 2 ema_value, period := period,
          current_price := roundTo 2 current_price, price_trend := trend }

/-! ## rsi.py -/

structure RsiOut where
  rsi : FVal
  period : ℕ
  signal : String
deriving DecidableEq

/-- Gain series of rsi.py: `delta.where(delta > 0, 0)`; the first delta is
NaN, and `NaN > 0` is false, so position 0 holds 0. -/
def rsiGains : List ℚ → List ℚ
  | [] => []
  | p =>
      0 :: List.zipWith (fun prev cur => if prev < cur then cur - prev else 0)
        p p.tail

/-- Loss series of rsi.py: `-delta.where(delta < 0, 0)`. -/
def rsiLosses : List ℚ → List ℚ
  | [] => []
  | p =>
      0 :: List.zipWith (fun prev cur => if cur < prev then prev - cur else 0)
        p p.tail

/-- `gain.rolling(window=period).mean().iloc[-1]`. -/
def rsiAvgGain (prices : List ℚ) (period : ℕ) : ℚ :=
  (lastWindow (rsiGains prices) period).sum / period

/-- `loss.rolling(window=period).mean().iloc[-1]`. -/
def rsiAvgLoss (prices : List ℚ) (period : ℕ) : ℚ :=
  (lastWindow (rsiLosses prices) period).sum / period

/-- `rsi = 100 - 100 / (1 + avg_gain / avg_loss)` with float semantics:
`avg_gain / 0` is an infinity (or NaN when both averages are 0). -/
def rsiValue (prices : List ℚ) (period : ℕ) : FVal :=
  FVal.sub (.fin 100)
    (FVal.div (.fin 100)
      (FVal.add (.fin 1)
        (FVal.div (.fin (rsiAvgGain prices period))
                  (.fin (rsiAvgLoss prices period)))))

/-- Embeds `get_rsi_signal` of rsi.py. -/
def get_rsi_signal (rsi_value : FVal) (overbought oversold : ℚ) : String :=
  if FVal.gtb rsi_value (.fin overbought) then "overbought"
  else if FVal.ltb rsi_value (.fin oversold) then "oversold"
  else "neutral"

/-- Embeds `calculate_rsi` of rsi.py. -/
def calculate_rsi (prices : List ℚ) (period : ℕ) (overbought oversold : ℚ) :
    Except String RsiOut :=
  let n := prices.length
  if n < period + 1 then
    .error ("Need at least " ++ toString (period + 1) ++ " prices, got " ++
      toString n)
  else
    let rv := rsiValue prices period
    .ok { rsi := FVal.roundF 2 rv, period := period,
          signal := get_rsi_signal rv overbought oversold }

/-! ## macd.py -/

structure MacdOut where
  macd : ℚ
  signal : ℚ
  histogram : ℚ
  crossover_signal : String
  fast_period : ℕ
  slow_period : ℕ
  signal_period : ℕ
deriving DecidableEq

/-- `ema_fast - ema_slow` over the whole series. -/
def macdLine (prices : List ℚ) (fast_period slow_period : ℕ) : List ℚ :=
  List.zipWith (fun a b => a - b)
    (ewmMean (spanAlpha fast_period) prices)
    (ewmMean (spanAlpha slow_period) prices)

/-- `macd_line.ewm(span=signal_period, adjust=False).mean()`. -/
def macdSignalLine (prices : List ℚ) (fast_period slow_period signal_period : ℕ) :
    List ℚ :=
  ewmMean (spanAlpha signal_period) (macdLine prices fast_period slow_period)

/-- `macd_line - signal_line`. -/
def macdHistogram (prices : List ℚ) (fast_period slow_period signal_period : ℕ) :
    List ℚ :=
  List.zipWith (fun a b => a - b)
    (macdLine prices fast_period slow_period)
    (macdSignalLine prices fast_period slow_period signal_period)

/-- The signal-selection chain of macd.py on the four extracted scalars
(the histogram entries are recomputed, as in the source, as the
differences of the corresponding entries). -/
def macdSignalCode (prev_macd prev_signal macd_value signal_value
    prev_histogram histogram_value : ℚ) : String :=
  if prev_macd ≤ prev_signal ∧ signal_value < macd_value then "bullish_crossover"
  else if prev_signal ≤ prev_macd ∧ macd_value < signal_value then
    "bearish_crossover"
  else if 0 < histogram_value ∧ prev_histogram < histogram_value then
    "bullish_momentum"
  else if histogram_value < 0 ∧ histogram_value < prev_histogram then
    "bearish_momentum"
  else if 0 < histogram_value then "bullish"
  else if histogram_value < 0 then "bearish"
  else "neutral"

/-- Embeds `calculate_macd` of macd.py. -/
def calculate_macd (prices : List ℚ)
    (fast_period slow_period signal_period : ℕ) : Except String MacdOut :=
  let n := prices.length
  let min_required := slow_period + signal_period
  if n < min_required then
    .error ("Need at least " ++ toString min_required ++ " prices, got " ++
      toString n)
  else
    let macd_line := macdLine prices fast_period slow_period
    let signal_line := macdSignalLine prices fast_period slow_period signal_period
    let histogram := macdHistogram prices fast_period slow_period signal_period
    let macd_value := macd_line.getD (n - 1) 0
    let signal_value := signal_line.getD (n - 1) 0
    let histogram_value := histogram.getD (n - 1) 0
    let prev_macd := macd_line.getD (n - 2) 0
    let prev_signal := signal_line.getD (n - 2) 0
    let prev_histogram := histogram.getD (n - 2) 0
    .ok { macd := roundTo 3 macd_value,
          signal := roundTo 3 signal_value,
          histogram := roundTo 3 histogram_value,
          crossover_signal := macdSignalCode prev_macd prev_signal macd_value
            signal_value prev_histogram histogram_value,
          fast_period := fast_period, slow_period := slow_period,
          signal_period := signal_period }

/-- The claim's description of MACD signal resolution, as a function of
the last two values of the difference MACD line minus signal line:
crossover by sign change first, then histogram momentum, then histogram
sign, else neutral. -/
def macdSignalSpec (dPrev d : ℚ) : String :=
  if dPrev ≤ 0 ∧ 0 < d then "bullish_crossover"
  else if 0 ≤ dPrev ∧ d < 0 then "bearish_crossover"
  else if 0 < d ∧ dPrev < d then "bullish_momentum"
  else if d < 0 ∧ d < dPrev then "bearish_momentum"
  else if 0 < d then "bullish"
  else if d < 0 then "bearish"
  else "neutral"

theorem macdSignalCode_eq_spec (pm ps m s : ℚ) :
    macdSignalCode pm ps m s (pm - ps) (m - s) =
      macdSignalSpec (pm - ps) (m - s) := by
  simp only [macdSignalCode, macdSignalSpec, sub_nonpos, sub_nonneg,
    sub_pos, sub_neg, sub_lt_sub_iff_right]

/-! ## atr.py and adx.py: true range and directional movement -/

/-- True range at position `i`: `max(high-low, |high-prev_close|,
|low-prev_close|)`.  At position 0 the previous close is NaN, the two
NaN columns are skipped by the row-wise max, leaving `high - low`. -/
def trAt (candles : List Candle) (i : ℕ) : ℚ :=
  if i = 0 then (cAt candles 0).high - (cAt candles 0).low
  else
    max ((cAt candles i).high - (cAt candles i).low)
      (max |(cAt candles i).high - (cAt candles (i - 1)).close|
           |(cAt candles i).low - (cAt candles (i - 1)).close|)

/-- The `tr` column as a list. -/
def trList (candles : List Candle) : List ℚ :=
  (List.range candles.length).map (trAt candles)

structure AtrOut where
  atr : ℚ
  half_atr : ℚ
  double_atr : ℚ
  period : ℕ
deriving DecidableEq

/-- Embeds `calculate_atr` of atr.py: the mean of the `period` most
recent true-range values (`dropna` removes nothing: the row-wise max
never yields NaN). -/
def calculate_atr (candles : List Candle) (period : ℕ) :
    Except String AtrOut :=
  let n := candles.length
  if n < period + 1 then
    .error ("Need at least " ++ toString (period + 1) ++ " candles, got " ++
      toString n)
  else
    let t := (trList candles).drop (n - period)
    let atr_value := t.sum / t.length
    .ok { atr := roundTo 2 atr_value,
          half_atr := roundTo 2 (atr_value * (1/2)),
          double_atr := roundTo 2 (atr_value * 2),
          period := period }

/-- Embeds the insufficient-data guard of `calculate_historical_volatility`
(historical_volatility.py); the body (log returns, square roots) is not
needed by any claim. -/
def hvLengthCheck (prices : List ℚ) (period : ℕ) : Except String Unit :=
  let n := prices.length
  if n < period + 1 then
    .error ("Need at least " ++ toString (period + 1) ++ " prices, got " ++
      toString n)
  else .ok ()

/-- `+DM` column of adx.py: `high_diff` if it exceeds `low_diff` and is
positive, else 0; position 0 compares NaNs, so it holds 0. -/
def plusDMAt (candles : List Candle) (i : ℕ) : ℚ :=
  if i = 0 then 0
  else
    let hd := (cAt candles i).high - (cAt candles (i - 1)).high
    let ld := (cAt candles (i - 1)).low - (cAt candles i).low
    if ld < hd ∧ 0 < hd then hd else 0

/-- `-DM` column of adx.py, symmetric to `+DM`. -/
def minusDMAt (candles : List Candle) (i : ℕ) : ℚ :=
  if i = 0 then 0
  else
    let hd := (cAt candles i).high - (cAt candles (i - 1)).high
    let ld := (cAt candles (i - 1)).low - (cAt candles i).low
    if hd < ld ∧ 0 < ld then ld else 0

/-- `raw.rolling(window=p).mean()` at position `i` (meaningful for
`i ≥ p - 1`, the positions adx.py reads). -/
def rollMean (raw : ℕ → ℚ) (p : ℕ) (i : ℕ) : ℚ :=
  ((List.range p).map (fun j => raw (i + 1 - p + j))).sum / p

/-- The smoothing adx.py applies to TR, +DM and -DM: a rolling mean,
then the in-place loop `for i in range(period, len(df))` that rewrites
position `i` with Wilder's recurrence but `continue`s at `i == period`,
leaving the rolling mean there. -/
def wilderSmoothCode (raw : ℕ → ℚ) (p : ℕ) : ℕ → ℚ
  | 0 => rollMean raw p 0
  | i + 1 =>
      if i + 1 ≤ p then rollMean raw p (i + 1)
      else (wilderSmoothCode raw p i * ((p : ℚ) - 1) + raw (i + 1)) / p

/-- The smoothed-TR (`atr`) column of adx.py. -/
def atrSeq (candles : List Candle) (p i : ℕ) : ℚ :=
  wilderSmoothCode (trAt candles) p i

/-- The `plus_dm_smooth` column of adx.py. -/
def plusDMSeq (candles : List Candle) (p i : ℕ) : ℚ :=
  wilderSmoothCode (plusDMAt candles) p i

/-- The `minus_dm_smooth` column of adx.py. -/
def minusDMSeq (candles : List Candle) (p i : ℕ) : ℚ :=
  wilderSmoothCode (minusDMAt candles) p i

theorem wilderSmoothCode_of_le (raw : ℕ → ℚ) (p i : ℕ) (h : i ≤ p) :
    wilderSmoothCode raw p i = rollMean raw p i := by
  cases i with
  | zero => rfl
  | succ m => rw [wilderSmoothCode, if_pos h]

theorem wilderSmoothCode_of_gt (raw : ℕ → ℚ) (p i : ℕ) (h : p < i) :
    wilderSmoothCode raw p i =
      (wilderSmoothCode raw p (i - 1) * ((p : ℚ) - 1) + raw i) / p := by
  cases i with
  | zero => omega
  | succ m =>
      rw [wilderSmoothCode, if_neg (by omega)]
      simp

/-- Embeds the insufficient-data guard of `calculate_adx` (adx.py). -/
def adxLengthCheck (candles : List Candle) (period : ℕ) :
    Except String Unit :=
  let n := candles.length
  let min_required := period * 2 + 1
  if n < min_required then
    .error ("Need at least " ++ toString min_required ++ " candles, got " ++
      toString n)
  else .ok ()

/-! ## bollinger_bands.py

The band computation takes a square root; its exact value is modelled in
`ℝ` (the only irrational step of the repository's indicators needed by a
claim). -/

/-- `roundHalfEven` on a real value. -/
noncomputable def roundHalfEvenR (x : ℝ) : ℤ :=
  if x - ⌊x⌋ < 1/2 then ⌊x⌋
  else if (1:ℝ)/2 < x - ⌊x⌋ then ⌊x⌋ + 1
  else if ⌊x⌋ % 2 = 0 then ⌊x⌋ else ⌊x⌋ + 1

/-- `roundTo` on a real value. -/
noncomputable def roundToR (n : ℕ) (x : ℝ) : ℝ :=
  (roundHalfEvenR (x * 10 ^ n) : ℝ) / 10 ^ n

theorem roundHalfEvenR_intCast (z : ℤ) : roundHalfEvenR (z : ℝ) = z := by
  simp [roundHalfEvenR]

theorem roundToR_cast_div_pow (n : ℕ) (z : ℤ) :
    roundToR n ((z : ℝ) / 10 ^ n) = (z : ℝ) / 10 ^ n := by
  have h : ((z : ℝ) / 10 ^ n) * 10 ^ n = (z : ℝ) := by
    field_simp
  rw [roundToR, h, roundHalfEvenR_intCast]

structure BollOut where
  upper_band : ℝ
  middle_band : ℝ
  lower_band : ℝ
  bandwidth : ℝ
  percent_b : ℝ
  current_price : ℚ
  signal : String
  period : ℕ
  std_dev : ℚ

/-- `series.rolling(window=period).mean().iloc[-1]`. -/
def bollMiddle (prices : List ℚ) (period : ℕ) : ℚ :=
  (lastWindow prices period).sum / period

/-- The squared sample deviation under
`series.rolling(window=period).std().iloc[-1]` (ddof = 1). -/
def bollVar (prices : List ℚ) (period : ℕ) : ℚ :=
  ((lastWindow prices period).map
    (fun x => (x - bollMiddle prices period) ^ 2)).sum / (period - 1)

/-- `series.rolling(window=period).std().iloc[-1]`. -/
noncomputable def bollStd (prices : List ℚ) (period : ℕ) : ℝ :=
  Real.sqrt (bollVar prices period)

noncomputable def bollUpper (prices : List ℚ) (period : ℕ) (std_dev : ℚ) : ℝ :=
  (bollMiddle prices period : ℝ) + std_dev * bollStd prices period

noncomputable def bollLower (prices : List ℚ) (period : ℕ) (std_dev : ℚ) : ℝ :=
  (bollMiddle prices period : ℝ) - std_dev * bollStd prices period

noncomputable def bollBandwidth (prices : List ℚ) (period : ℕ)
    (std_dev : ℚ) : ℝ :=
  bollUpper prices period std_dev - bollLower prices period std_dev

/-- `%B = (price - lower) / bandwidth`, or 0.5 on zero bandwidth. -/
noncomputable def bollPercentB (prices : List ℚ) (period : ℕ)
    (std_dev : ℚ) : ℝ :=
  if bollBandwidth prices period std_dev ≠ 0 then
    ((lastD prices 0 : ℝ) - bollLower prices period std_dev) /
      bollBandwidth prices period std_dev
  else 1/2

/-- The signal chain of bollinger_bands.py on `%B`. -/
noncomputable def bollSignal (pb : ℝ) : String :=
  if 1 < pb then "overbought"
  else if pb < 0 then "oversold"
  else if 4/5 < pb then "near_upper"
  else if pb < 1/5 then "near_lower"
  else "neutral"

/-- Embeds `calculate_bollinger_bands` of bollinger_bands.py. -/
noncomputable def calculate_bollinger_bands (prices : List ℚ) (period : ℕ)
    (std_dev : ℚ) : Except String BollOut :=
  let n := prices.length
  if n < period then
    .error ("Need at least " ++ toString period ++ " prices, got " ++
      toString n)
  else
    let pb := bollPercentB prices period std_dev
    .ok { upper_band := roundToR 2 (bollUpper prices period std_dev),
          middle_band := roundToR 2 (bollMiddle prices period : ℝ),
          lower_band := roundToR 2 (bollLower prices period std_dev),
          bandwidth := roundToR 2 (bollBandwidth prices period std_dev),
          percent_b := roundToR 3 pb,
          current_price := roundTo 2 (lastD prices 0),
          signal := bollSignal pb,
          period := period, std_dev := std_dev }

/-! ## vwap.py -/

/-- `typical_price = (high + low + close) / 3`. -/
def typicalPrice (c : CandleV) : ℚ := (c.high + c.low + c.close) / 3

/-- `cumulative_pv.iloc[-1] / cumulative_volume.iloc[-1]`: the running
totals over the whole series. -/
def vwapValue (candles : List CandleV) : ℚ :=
  (candles.map (fun c => typicalPrice c * c.volume)).sum /
    (candles.map (fun c => c.volume)).sum

/-- `int(x)` in Python: truncation toward zero. -/
def pyInt (q : ℚ) : ℤ := if 0 ≤ q then ⌊q⌋ else -⌊-q⌋

structure VwapOut where
  vwap : ℚ
  current_price : ℚ
  deviation_pct : ℚ
  signal : String
  total_volume : ℤ
deriving DecidableEq

/-- The volume-weighted variance behind the deviation bands of vwap.py. -/
def vwapVariance (candles : List CandleV) : ℚ :=
  (candles.map
    (fun c => (typicalPrice c - vwapValue candles) ^ 2 * c.volume)).sum /
    (candles.map (fun c => c.volume)).sum

/-- `vwap + std_dev` (the `upper_band` field of vwap.py's result;
irrational, hence modelled beside the rational fields). -/
noncomputable def vwapUpperBand (candles : List CandleV) : ℝ :=
  (vwapValue candles : ℝ) + Real.sqrt (vwapVariance candles)

/-- `vwap - std_dev` (the `lower_band` field of vwap.py's result). -/
noncomputable def vwapLowerBand (candles : List CandleV) : ℝ :=
  (vwapValue candles : ℝ) - Real.sqrt (vwapVariance candles)

/-- `deviation = (current_price - vwap) / vwap * 100`. -/
def vwapDeviation (candles : List CandleV) : ℚ :=
  (lastD (candles.map (fun c => c.close)) 0 - vwapValue candles) /
    vwapValue candles * 100

/-- The signal chain of vwap.py on the deviation. -/
def vwapSignalOf (deviation : ℚ) : String :=
  if 2 < deviation then "significantly_above"
  else if 1/2 < deviation then "above"
  else if deviation < -2 then "significantly_below"
  else if deviation < -(1/2) then "below"
  else "near_vwap"

/-- Embeds `calculate_vwap` of vwap.py (its rational result fields; the
two band fields are `vwapUpperBand`/`vwapLowerBand` above). -/
def calculate_vwap (candles : List CandleV) : Except String VwapOut :=
  if candles.length < 1 then .error "Need at least 1 candle"
  else
    .ok { vwap := roundTo 2 (vwapValue candles),
          current_price := roundTo 2 (lastD (candles.map (fun c => c.close)) 0),
          deviation_pct := roundTo 2 (vwapDeviation candles),
          signal := vwapSignalOf (vwapDeviation candles),
          total_volume := pyInt (candles.map (fun c => c.volume)).sum }

theorem calculate_vwap_ok (candles : List CandleV)
    (h : 1 ≤ candles.length) :
    calculate_vwap candles =
      .ok { vwap := roundTo 2 (vwapValue candles),
            current_price :=
              roundTo 2 (lastD (candles.map (fun c => c.close)) 0),
            deviation_pct := roundTo 2 (vwapDeviation candles),
            signal := vwapSignalOf (vwapDeviation candles),
            total_volume := pyInt (candles.map (fun c => c.volume)).sum } := by
  rw [calculate_vwap, if_neg (by omega)]

/-! ## stochastic.py -/

/-- The trailing `k`-candle window ending at position `i`. -/
def stochWindow (candles : List Candle) (k i : ℕ) : List Candle :=
  (candles.take (i + 1)).drop (i + 1 - k)

/-- `low.rolling(window=k_period).min()` at position `i`. -/
def lowMin (candles : List Candle) (k i : ℕ) : ℚ :=
  qListMin ((stochWindow candles k i).map (fun c => c.low))

/-- `high.rolling(window=k_period).max()` at position `i`. -/
def highMax (candles : List Candle) (k i : ℕ) : ℚ :=
  qListMax ((stochWindow candles k i).map (fun c => c.high))

/-- The `k_percent` column: NaN before the window fills, then
`100 * (close - low_min) / (high_max - low_min)` with float semantics
(an unguarded division). -/
def stochKList (candles : List Candle) (k : ℕ) : List FVal :=
  (List.range candles.length).map (fun i =>
    if i + 1 < k then FVal.nan
    else
      FVal.mul (.fin 100)
        (FVal.div (.fin ((cAt candles i).close - lowMin candles k i))
                  (.fin (highMax candles k i - lowMin candles k i))))

/-- `rolling(window=w).mean()` over a float column: NaN before the
window fills or when the window holds a NaN. -/
def fvalRollMean (l : List FVal) (w : ℕ) : List FVal :=
  (List.range l.length).map (fun i =>
    if i + 1 < w then FVal.nan
    else FVal.div (fsum ((l.take (i + 1)).drop (i + 1 - w))) (.fin w))

structure StochOut where
  k_percent : FVal
  d_percent : FVal
  signal : String
  k_period : ℕ
  d_period : ℕ
  overbought : ℚ
  oversold : ℚ
deriving DecidableEq

/-- The signal chain of stochastic.py on the latest and previous K and D
values (float comparisons: false when an operand is NaN). -/
def stochSignal (prev_k prev_d k_value d_value : FVal)
    (overbought oversold : ℚ) : String :=
  if FVal.leb prev_k prev_d && FVal.gtb k_value d_value then
    (if FVal.ltb k_value (.fin oversold) then "bullish_crossover_oversold"
     else "bullish_crossover")
  else if FVal.geb prev_k prev_d && FVal.ltb k_value d_value then
    (if FVal.gtb k_value (.fin overbought) then "bearish_crossover_overbought"
     else "bearish_crossover")
  else if FVal.gtb k_value (.fin overbought) &&
      FVal.gtb d_value (.fin overbought) then "overbought"
  else if FVal.ltb k_value (.fin oversold) &&
      FVal.ltb d_value (.fin oversold) then "oversold"
  else if FVal.gtb k_value (.fin overbought) then "near_overbought"
  else if FVal.ltb k_value (.fin oversold) then "near_oversold"
  else "neutral"

/-- Embeds `calculate_stochastic` of stochastic.py. -/
def calculate_stochastic (candles : List Candle) (k_period d_period : ℕ)
    (overbought oversold : ℚ) : Except String StochOut :=
  let n := candles.length
  let min_required := k_period + d_period - 1
  if n < min_required then
    .error ("Need at least " ++ toString min_required ++ " candles, got " ++
      toString n)
  else
    let ks := stochKList candles k_period
    let ds := fvalRollMean ks d_period
    let k_value := ks.getD (n - 1) .nan
    let d_value := ds.getD (n - 1) .nan
    let prev_k := ks.getD (n - 2) .nan
    let prev_d := ds.getD (n - 2) .nan
    .ok { k_percent := FVal.roundF 2 k_value,
          d_percent := FVal.roundF 2 d_value,
          signal := stochSignal prev_k prev_d k_value d_value overbought
            oversold,
          k_period := k_period, d_period := d_period,
          overbought := overbought, oversold := oversold }

/-! ## pivot_points.py -/

/-- Embeds `calculate_standard_pivots`, in the dict's insertion order. -/
def calculate_standard_pivots (high low close : ℚ) : List (String × ℚ) :=
  let pivot := (high + low + close) / 3
  [("r3", roundTo 2 (high + 2 * (pivot - low))),
   ("r2", roundTo 2 (pivot + (high - low))),
   ("r1", roundTo 2 (2 * pivot - low)),
   ("pivot", roundTo 2 pivot),
   ("s1", roundTo 2 (2 * pivot - high)),
   ("s2", roundTo 2 (pivot - (high - low))),
   ("s3", roundTo 2 (low - 2 * (high - pivot)))]

/-- Embeds `calculate_fibonacci_pivots`. -/
def calculate_fibonacci_pivots (high low close : ℚ) : List (String × ℚ) :=
  let pivot := (high + low + close) / 3
  let range_hl := high - low
  [("r3", roundTo 2 (pivot + range_hl)),
   ("r2", roundTo 2 (pivot + 618/1000 * range_hl)),
   ("r1", roundTo 2 (pivot + 382/1000 * range_hl)),
   ("pivot", roundTo 2 pivot),
   ("s1", roundTo 2 (pivot - 382/1000 * range_hl)),
   ("s2", roundTo 2 (pivot - 618/1000 * range_hl)),
   ("s3", roundTo 2 (pivot - range_hl))]

/-- Embeds `calculate_camarilla_pivots`. -/
def calculate_camarilla_pivots (high low close : ℚ) : List (String × ℚ) :=
  let range_hl := high - low
  [("r4", roundTo 2 (close + range_hl * (11/10) / 2)),
   ("r3", roundTo 2 (close + range_hl * (11/10) / 4)),
   ("r2", roundTo 2 (close + range_hl * (11/10) / 6)),
   ("r1", roundTo 2 (close + range_hl * (11/10) / 12)),
   ("pivot", roundTo 2 close),
   ("s1", roundTo 2 (close - range_hl * (11/10) / 12)),
   ("s2", roundTo 2 (close - range_hl * (11/10) / 6)),
   ("s3", roundTo 2 (close - range_hl * (11/10) / 4)),
   ("s4", roundTo 2 (close - range_hl * (11/10) / 2))]

/-- Level selection by pivot type (anything else falls back to standard). -/
def pivotLevels (c : Candle) (pivot_type : String) : List (String × ℚ) :=
  if pivot_type = "fibonacci" then calculate_fibonacci_pivots c.high c.low c.close
  else if pivot_type = "camarilla" then
    calculate_camarilla_pivots c.high c.low c.close
  else calculate_standard_pivots c.high c.low c.close

/-- Python `k.startswith(pre)`: the characters of `pre` begin `k`. -/
def pyStartsWith (k pre : String) : Bool :=
  pre.toList.isPrefixOf k.toList

/-- Python `max(items, key=lambda x: x[1])` over a possibly empty list:
first entry with the largest value, `none` on `[]`. -/
def pyMaxByVal (l : List (String × ℚ)) : Option (String × ℚ) :=
  match l with
  | [] => none
  | x :: xs => some (xs.foldl (fun b y => if b.2 < y.2 then y else b) x)

/-- Python `min(items, key=lambda x: x[1])` over a possibly empty list. -/
def pyMinByVal (l : List (String × ℚ)) : Option (String × ℚ) :=
  match l with
  | [] => none
  | x :: xs => some (xs.foldl (fun b y => if y.2 < b.2 then y else b) x)

structure PivotResult where
  type : String
  levels : List (String × ℚ)
  current_price : Option ℚ
  nearest_support : Option (String × ℚ)
  nearest_resistance : Option (String × ℚ)
  position : Option String
deriving DecidableEq

/-- Embeds `calculate_pivot_points` of pivot_points.py. -/
def calculate_pivot_points (prev_candle : Candle) (pivot_type : String)
    (current_price : Option ℚ) : PivotResult :=
  let levels := pivotLevels prev_candle pivot_type
  match current_price with
  | none => ⟨pivot_type, levels, none, none, none, none⟩
  | some cp =>
    let pivot := (levels.lookup "pivot").getD 0
    if pivot < cp then
      let resistances := levels.filter
        (fun kv => pyStartsWith kv.1 "r" && decide (cp < kv.2))
      let supports := levels.filter
        (fun kv => pyStartsWith kv.1 "s" || kv.1 == "pivot")
      ⟨pivot_type, levels, some (roundTo 2 cp), pyMaxByVal supports,
        pyMinByVal resistances, some "above_pivot"⟩
    else
      let supports := levels.filter
        (fun kv => pyStartsWith kv.1 "s" && decide (kv.2 < cp))
      let resistances := levels.filter
        (fun kv => pyStartsWith kv.1 "r" || kv.1 == "pivot")
      ⟨pivot_type, levels, some (roundTo 2 cp), pyMaxByVal supports,
        pyMinByVal resistances, some "below_pivot"⟩

/-! ## Claims -/

/-- C8: for candle {high:100, low:95, close:98} with standard type,
calculate_pivot_points returns pivot = 97.67, r1 = 100.33 and s1 = 95.33
after rounding to 2 decimal places, each derived from its formula
pivot = (high+low+close)/3, r1 = 2*pivot - low, s1 = 2*pivot - high. -/
theorem c8_standard_pivot_values :
    ((calculate_pivot_points ⟨100, 95, 98⟩ "standard" none).levels.lookup
        "pivot" = some (roundTo 2 ((100 + 95 + 98 : ℚ) / 3)) ∧
      roundTo 2 ((100 + 95 + 98 : ℚ) / 3) = 9767/100) ∧
    ((calculate_pivot_points ⟨100, 95, 98⟩ "standard" none).levels.lookup
        "r1" = some (roundTo 2 (2 * ((100 + 95 + 98 : ℚ) / 3) - 95)) ∧
      roundTo 2 (2 * ((100 + 95 + 98 : ℚ) / 3) - 95) = 10033/100) ∧
    ((calculate_pivot_points ⟨100, 95, 98⟩ "standard" none).levels.lookup
        "s1" = some (roundTo 2 (2 * ((100 + 95 + 98 : ℚ) / 3) - 100)) ∧
      roundTo 2 (2 * ((100 + 95 + 98 : ℚ) / 3) - 100) = 9533/100) := by
  refine ⟨⟨?_, ?_⟩, ⟨?_, ?_⟩, ⟨?_, ?_⟩⟩ <;>
    first
      | (norm_num [calculate_pivot_points, pivotLevels,
          calculate_standard_pivots, List.lookup]; rfl)
      | norm_num [roundTo, roundHalfEven]

/-- C9: the smoothing argument of calculate_ema (the --smoothing CLI
option, default 2.0) has no effect on any output field: any two values
give identical results. -/
theorem c9_smoothing_unused (prices : List ℚ) (period : ℕ) (s1 s2 : ℚ) :
    calculate_ema prices period s1 = calculate_ema prices period s2 := rfl

/-- C2 fails as stated: for the single candle {high:100, low:95,
close:98, volume:1}, the returned vwap is the rounded typical price
97.67, not the exact typical price 293/3, and deviation_pct is 0.34,
not 0 (the deviation compares the close, not the typical price, to the
VWAP). -/
theorem c2_counterexample :
    calculate_vwap [⟨100, 95, 98, 1⟩] =
      .ok { vwap := 9767/100, current_price := 98, deviation_pct := 17/50,
            signal := "near_vwap", total_volume := 1 } ∧
    typicalPrice ⟨100, 95, 98, 1⟩ = 293/3 ∧
    ((9767 : ℚ)/100 ≠ 293/3 ∧ (17 : ℚ)/50 ≠ 0) := by
  refine ⟨?_, ?_, ?_, ?_⟩
  · norm_num [calculate_vwap, vwapValue, vwapDeviation, vwapSignalOf,
      typicalPrice, lastD, pyInt, roundTo, roundHalfEven]
  · norm_num [typicalPrice]
  · norm_num
  · norm_num

/-- C2 amended: for a single candle with positive volume, the unrounded
VWAP equals the candle's typical price exactly; the returned vwap is the
typical price rounded to 2 decimals, and deviation_pct is the
percentage deviation of the close from the typical price rounded to 2
decimals, which is 0 when the close equals the typical price. -/
theorem c2_single_candle (h l c v : ℚ) (hv : 0 < v) :
    vwapValue [⟨h, l, c, v⟩] = typicalPrice ⟨h, l, c, v⟩ ∧
    ∃ out, calculate_vwap [⟨h, l, c, v⟩] = .ok out ∧
      out.vwap = roundTo 2 (typicalPrice ⟨h, l, c, v⟩) ∧
      out.deviation_pct = roundTo 2
        ((c - typicalPrice ⟨h, l, c, v⟩) / typicalPrice ⟨h, l, c, v⟩ * 100) ∧
      (c = typicalPrice ⟨h, l, c, v⟩ → out.deviation_pct = 0) := by
  have hv0 : v ≠ 0 := ne_of_gt hv
  have hvv : vwapValue [⟨h, l, c, v⟩] = typicalPrice ⟨h, l, c, v⟩ := by
    simp [vwapValue, typicalPrice, mul_div_assoc, div_self hv0]
  have hlast : lastD (([⟨h, l, c, v⟩] : List CandleV).map (fun x => x.close)) 0 = c := by
    simp [lastD]
  have hdev : vwapDeviation [⟨h, l, c, v⟩] =
      (c - typicalPrice ⟨h, l, c, v⟩) / typicalPrice ⟨h, l, c, v⟩ * 100 := by
    rw [vwapDeviation, hvv, hlast]
  refine ⟨hvv, _, calculate_vwap_ok [⟨h, l, c, v⟩] (by simp), ?_, ?_, ?_⟩
  · rw [hvv]
  · rw [hdev]
  · intro hc
    have hz : (c - typicalPrice ⟨h, l, c, v⟩) / typicalPrice ⟨h, l, c, v⟩ *
        100 = 0 := by
      nth_rewrite 1 [hc]
      simp
    rw [hdev, hz]
    norm_num [roundTo, roundHalfEven]

/-- C2 witness: the amended statement evaluated at the single candle
{5, 5, 5, volume 2}. -/
theorem c2_witness :
    vwapValue [⟨5, 5, 5, 2⟩] = typicalPrice ⟨5, 5, 5, 2⟩ ∧
    ∃ out, calculate_vwap [⟨5, 5, 5, 2⟩] = .ok out ∧
      out.vwap = roundTo 2 (typicalPrice ⟨5, 5, 5, 2⟩) ∧
      out.deviation_pct = roundTo 2
        ((5 - typicalPrice ⟨5, 5, 5, 2⟩) / typicalPrice ⟨5, 5, 5, 2⟩ * 100) ∧
      (5 = typicalPrice ⟨5, 5, 5, 2⟩ → out.deviation_pct = 0) :=
  c2_single_candle 5 5 5 2 (by norm_num)

/-- A five-candle series (enough for calculate_adx with period 2) whose
smoothed-TR column at position `period` differs from Wilder's
recurrence applied there. -/
def adxFiveCandles : List Candle :=
  [⟨10, 8, 9⟩, ⟨12, 9, 11⟩, ⟨20, 10, 15⟩, ⟨21, 11, 16⟩, ⟨22, 12, 17⟩]

/-- C1 fails as stated: with period 2, the smoothed TR value at index
period (= 2) is the rolling mean 13/2, not the value 25/4 that Wilder's
recurrence would give; the in-place loop of calculate_adx skips index
`period` (`continue`), so the recurrence does not hold at that index
even though it is strictly greater than period-1. -/
theorem c1_counterexample :
    adxLengthCheck adxFiveCandles 2 = .ok () ∧
    atrSeq adxFiveCandles 2 2 ≠
      (atrSeq adxFiveCandles 2 1 * ((2 : ℚ) - 1) + trAt adxFiveCandles 2) / 2 := by
  refine ⟨rfl, ?_⟩
  norm_num [atrSeq, wilderSmoothCode, rollMean, trAt, cAt, adxFiveCandles,
    List.range, List.range.loop]

/-- C1 amended: the smoothed TR, +DM and -DM columns of calculate_adx
carry the rolling mean of the first `period` raw values at index
period-1, additionally keep the rolling mean (over raw indices
1..period) at index period — where the loop skips Wilder's recurrence —
and satisfy Wilder's recurrence smoothed_i =
(smoothed_(i-1)*(period-1) + raw_i)/period exactly at the indices
strictly greater than period. -/
theorem c1_smoothing_shape (candles : List Candle) (p : ℕ) :
    (atrSeq candles p (p - 1) = rollMean (trAt candles) p (p - 1) ∧
     plusDMSeq candles p (p - 1) = rollMean (plusDMAt candles) p (p - 1) ∧
     minusDMSeq candles p (p - 1) = rollMean (minusDMAt candles) p (p - 1)) ∧
    (atrSeq candles p p = rollMean (trAt candles) p p ∧
     plusDMSeq candles p p = rollMean (plusDMAt candles) p p ∧
     minusDMSeq candles p p = rollMean (minusDMAt candles) p p) ∧
    (∀ i, p < i →
      atrSeq candles p i =
        (atrSeq candles p (i - 1) * ((p : ℚ) - 1) + trAt candles i) / p ∧
      plusDMSeq candles p i =
        (plusDMSeq candles p (i - 1) * ((p : ℚ) - 1) + plusDMAt candles i) / p ∧
      minusDMSeq candles p i =
        (minusDMSeq candles p (i - 1) * ((p : ℚ) - 1) + minusDMAt candles i) / p) := by
  refine ⟨⟨?_, ?_, ?_⟩, ⟨?_, ?_, ?_⟩, fun i hi => ⟨?_, ?_, ?_⟩⟩ <;>
    first
      | exact wilderSmoothCode_of_le _ _ _ (Nat.sub_le p 1)
      | exact wilderSmoothCode_of_le _ _ _ (le_refl p)
      | exact wilderSmoothCode_of_gt _ _ _ hi

/-- C4 fails as stated: calculate_vwap with 0 candles raises the
insufficient-data error, but its message "Need at least 1 candle" names
only the required count; it does not state the supplied count 0 (no
character '0' occurs in it at all). -/
theorem c4_counterexample :
    calculate_vwap [] = .error "Need at least 1 candle" ∧
    Char.ofNat 48 ∉ "Need at least 1 candle".toList := by
  exact ⟨rfl, by decide⟩

/-- C4 amended: every indicator raises its insufficient-data error,
before any computation, whenever fewer data points than its minimum
(SMA, EMA, Bollinger: period; RSI, ATR, historical volatility:
period+1; MACD: slow+signal; Stochastic: k_period+d_period-1; ADX:
2*period+1; VWAP: 1) are supplied, and the message states the required
count and the supplied count - except VWAP, whose fixed message "Need
at least 1 candle" omits the supplied count. -/
theorem c4_insufficient_data :
    (∀ (prices : List ℚ) (period : ℕ), prices.length < period →
      calculate_sma prices period =
        .error ("Need at least " ++ toString period ++ " prices, got " ++
          toString prices.length)) ∧
    (∀ (prices : List ℚ) (period : ℕ) (smoothing : ℚ),
      prices.length < period →
      calculate_ema prices period smoothing =
        .error ("Need at least " ++ toString period ++ " prices, got " ++
          toString prices.length)) ∧
    (∀ (prices : List ℚ) (period : ℕ) (std_dev : ℚ),
      prices.length < period →
      calculate_bollinger_bands prices period std_dev =
        .error ("Need at least " ++ toString period ++ " prices, got " ++
          toString prices.length)) ∧
    (∀ (prices : List ℚ) (period : ℕ) (ob os : ℚ),
      prices.length < period + 1 →
      calculate_rsi prices period ob os =
        .error ("Need at least " ++ toString (period + 1) ++
          " prices, got " ++ toString prices.length)) ∧
    (∀ (candles : List Candle) (period : ℕ), candles.length < period + 1 →
      calculate_atr candles period =
        .error ("Need at least " ++ toString (period + 1) ++
          " candles, got " ++ toString candles.length)) ∧
    (∀ (prices : List ℚ) (period : ℕ), prices.length < period + 1 →
      hvLengthCheck prices period =
        .error ("Need at least " ++ toString (period + 1) ++
          " prices, got " ++ toString prices.length)) ∧
    (∀ (prices : List ℚ) (fast slow sig : ℕ), prices.length < slow + sig →
      calculate_macd prices fast slow sig =
        .error ("Need at least " ++ toString (slow + sig) ++
          " prices, got " ++ toString prices.length)) ∧
    (∀ (candles : List Candle) (k d : ℕ) (ob os : ℚ),
      candles.length < k + d - 1 →
      calculate_stochastic candles k d ob os =
        .error ("Need at least " ++ toString (k + d - 1) ++
          " candles, got " ++ toString candles.length)) ∧
    (∀ (candles : List Candle) (period : ℕ),
      candles.length < period * 2 + 1 →
      adxLengthCheck candles period =
        .error ("Need at least " ++ toString (period * 2 + 1) ++
          " candles, got " ++ toString candles.length)) ∧
    (∀ (candles : List CandleV), candles.length < 1 →
      calculate_vwap candles = .error "Need at least 1 candle") := by
  refine ⟨?_, ?_, ?_, ?_, ?_, ?_, ?_, ?_, ?_, ?_⟩ <;>
    intros <;>
    first
      | (simp only [calculate_sma]; rw [if_pos (by omega)])
      | (simp only [calculate_ema]; rw [if_pos (by omega)])
      | (simp only [calculate_bollinger_bands]; rw [if_pos (by omega)])
      | (simp only [calculate_rsi]; rw [if_pos (by omega)])
      | (simp only [calculate_atr]; rw [if_pos (by omega)])
      | (simp only [hvLengthCheck]; rw [if_pos (by omega)])
      | (simp only [calculate_macd]; rw [if_pos (by omega)])
      | (simp only [calculate_stochastic]; rw [if_pos (by omega)])
      | (simp only [adxLengthCheck]; rw [if_pos (by omega)])
      | (simp only [calculate_vwap]; rw [if_pos (by omega)])

/-- C4 witness: the amended statement evaluated for each indicator with
an empty input and small parameters. -/
theorem c4_witness :
    calculate_sma [] 1 = .error "Need at least 1 prices, got 0" ∧
    calculate_ema [] 1 2 = .error "Need at least 1 prices, got 0" ∧
    calculate_bollinger_bands [] 1 2 =
      .error "Need at least 1 prices, got 0" ∧
    calculate_rsi [] 14 70 30 = .error "Need at least 15 prices, got 0" ∧
    calculate_atr [] 10 = .error "Need at least 11 candles, got 0" ∧
    hvLengthCheck [] 20 = .error "Need at least 21 prices, got 0" ∧
    calculate_macd [] 12 26 9 = .error "Need at least 35 prices, got 0" ∧
    calculate_stochastic [] 14 3 80 20 =
      .error "Need at least 16 candles, got 0" ∧
    adxLengthCheck [] 14 = .error "Need at least 29 candles, got 0" ∧
    calculate_vwap [] = .error "Need at least 1 candle" := by
  refine ⟨?_, ?_, ?_, ?_, ?_, ?_, ?_, ?_, ?_, ?_⟩
  · rw [c4_insufficient_data.1 ([] : List ℚ) 1 (by decide)]
    rfl
  · rw [c4_insufficient_data.2.1 ([] : List ℚ) 1 2 (by decide)]
    rfl
  · rw [c4_insufficient_data.2.2.1 ([] : List ℚ) 1 2 (by decide)]
    rfl
  · rw [c4_insufficient_data.2.2.2.1 ([] : List ℚ) 14 70 30 (by decide)]
    rfl
  · rw [c4_insufficient_data.2.2.2.2.1 ([] : List Candle) 10 (by decide)]
    rfl
  · rw [c4_insufficient_data.2.2.2.2.2.1 ([] : List ℚ) 20 (by decide)]
    rfl
  · rw [c4_insufficient_data.2.2.2.2.2.2.1 ([] : List ℚ) 12 26 9 (by decide)]
    rfl
  · rw [c4_insufficient_data.2.2.2.2.2.2.2.1 ([] : List Candle) 14 3 80 20
      (by decide)]
    rfl
  · rw [c4_insufficient_data.2.2.2.2.2.2.2.2.1 ([] : List Candle) 14
      (by decide)]
    rfl
  · rw [c4_insufficient_data.2.2.2.2.2.2.2.2.2 ([] : List CandleV)
      (by decide)]

/-- C1 witness: the amended statement evaluated on the five-candle
series with period 2 and index 3. -/
theorem c1_witness :
    atrSeq adxFiveCandles 2 1 = rollMean (trAt adxFiveCandles) 2 1 ∧
    atrSeq adxFiveCandles 2 2 = rollMean (trAt adxFiveCandles) 2 2 ∧
    atrSeq adxFiveCandles 2 3 =
      (atrSeq adxFiveCandles 2 2 * ((2 : ℚ) - 1) + trAt adxFiveCandles 3) / 2 :=
  ⟨(c1_smoothing_shape adxFiveCandles 2).1.1,
   (c1_smoothing_shape adxFiveCandles 2).2.1.1,
   ((c1_smoothing_shape adxFiveCandles 2).2.2 3 (by decide)).1⟩


/-! ### C7: nearest support and resistance -/

theorem foldl_pickMax_snd (xs : List (String × ℚ)) (a : String × ℚ) :
    (xs.foldl (fun b y => if b.2 < y.2 then y else b) a).2 =
      (xs.map Prod.snd).foldl max a.2 := by
  induction xs generalizing a with
  | nil => rfl
  | cons y ys ih =>
    simp only [List.foldl_cons, List.map_cons]
    rw [ih]
    congr 1
    by_cases h : a.2 < y.2
    · rw [if_pos h]; exact (max_eq_right (le_of_lt h)).symm
    · rw [if_neg h]; exact (max_eq_left (le_of_not_lt h)).symm

/-- The entry Python `max(..., key=...)` returns carries the maximum of
the values. -/
theorem pyMaxByVal_map_snd (l : List (String × ℚ)) :
    (pyMaxByVal l).map Prod.snd = (l.map Prod.snd).max? := by
  cases l with
  | nil => rfl
  | cons x xs =>
    simp only [pyMaxByVal, List.map_cons, List.max?]
    exact congrArg some (foldl_pickMax_snd xs x)

theorem foldl_pickMin_snd (xs : List (String × ℚ)) (a : String × ℚ) :
    (xs.foldl (fun b y => if y.2 < b.2 then y else b) a).2 =
      (xs.map Prod.snd).foldl min a.2 := by
  induction xs generalizing a with
  | nil => rfl
  | cons y ys ih =>
    simp only [List.foldl_cons, List.map_cons]
    rw [ih]
    congr 1
    by_cases h : y.2 < a.2
    · rw [if_pos h]; exact (min_eq_right (le_of_lt h)).symm
    · rw [if_neg h]; exact (min_eq_left (le_of_not_lt h)).symm

/-- The entry Python `min(..., key=...)` returns carries the minimum of
the values. -/
theorem pyMinByVal_map_snd (l : List (String × ℚ)) :
    (pyMinByVal l).map Prod.snd = (l.map Prod.snd).min? := by
  cases l with
  | nil => rfl
  | cons x xs =>
    simp only [pyMinByVal, List.map_cons, List.min?]
    exact congrArg some (foldl_pickMin_snd xs x)

/-- C7 fails as stated: for candle {100, 95, 98}, standard pivots and
current price 95.33 (exactly the s1 level), the code filters supports
with a strict `v < current_price`, excludes s1, and returns s2 = 92.67
as nearest_support, while the claimed maximum of the support levels at
or below the price is s1 = 95.33. -/
theorem c7_counterexample :
    (calculate_pivot_points ⟨100, 95, 98⟩ "standard"
        (some (9533/100))).nearest_support = some ("s2", 9267/100) ∧
    (((pivotLevels ⟨100, 95, 98⟩ "standard").filter
        (fun kv => pyStartsWith kv.1 "s" && decide (kv.2 ≤ (9533:ℚ)/100))).map
      Prod.snd).max? = some ((9533:ℚ)/100) ∧
    ((9267:ℚ)/100 ≠ 9533/100) := by
  refine ⟨?_, ?_, by norm_num⟩
  · norm_num [calculate_pivot_points, pivotLevels, calculate_standard_pivots,
      List.lookup, List.filter_cons, pyMaxByVal, pyMinByVal, List.foldl,
      roundTo, roundHalfEven,
      show pyStartsWith "r3" "s" = false by decide,
      show pyStartsWith "r2" "s" = false by decide,
      show pyStartsWith "r1" "s" = false by decide,
      show pyStartsWith "pivot" "s" = false by decide,
      show pyStartsWith "s1" "s" = true by decide,
      show pyStartsWith "s2" "s" = true by decide,
      show pyStartsWith "s3" "s" = true by decide,
      show pyStartsWith "r3" "r" = true by decide,
      show pyStartsWith "r2" "r" = true by decide,
      show pyStartsWith "r1" "r" = true by decide,
      show pyStartsWith "pivot" "r" = false by decide,
      show pyStartsWith "s1" "r" = false by decide,
      show pyStartsWith "s2" "r" = false by decide,
      show pyStartsWith "s3" "r" = false by decide,
      show (("r3" : String) == "pivot") = false by decide,
      show (("r2" : String) == "pivot") = false by decide,
      show (("r1" : String) == "pivot") = false by decide,
      show (("pivot" : String) == "pivot") = true by decide,
      show (("s1" : String) == "pivot") = false by decide,
      show (("s2" : String) == "pivot") = false by decide,
      show (("s3" : String) == "pivot") = false by decide,
      show ¬ (("standard" : String) = "fibonacci") by decide,
      show ¬ (("standard" : String) = "camarilla") by decide,
      show ¬ ((9767:ℚ)/100 < 9533/100) by norm_num,
      show (("pivot" : String) == "r3") = false by decide,
      show (("pivot" : String) == "r2") = false by decide,
      show (("pivot" : String) == "r1") = false by decide]
  · have hlev : pivotLevels ⟨100, 95, 98⟩ "standard" =
        [("r3", (10533:ℚ)/100), ("r2", 10267/100), ("r1", 10033/100),
         ("pivot", 9767/100), ("s1", 9533/100), ("s2", 9267/100),
         ("s3", 9033/100)] := by
      norm_num [pivotLevels, calculate_standard_pivots, roundTo, roundHalfEven,
        show ¬ (("standard" : String) = "fibonacci") by decide,
        show ¬ (("standard" : String) = "camarilla") by decide]
    rw [hlev]
    have hfil : ([("r3", (10533:ℚ)/100), ("r2", 10267/100), ("r1", 10033/100),
         ("pivot", 9767/100), ("s1", 9533/100), ("s2", 9267/100),
         ("s3", 9033/100)]).filter
          (fun kv => pyStartsWith kv.1 "s" && decide (kv.2 ≤ (9533:ℚ)/100)) =
        [("s1", (9533:ℚ)/100), ("s2", 9267/100), ("s3", 9033/100)] := by
      norm_num [List.filter_cons,
        show pyStartsWith "r3" "s" = false by decide,
        show pyStartsWith "r2" "s" = false by decide,
        show pyStartsWith "r1" "s" = false by decide,
        show pyStartsWith "pivot" "s" = false by decide,
        show pyStartsWith "s1" "s" = true by decide,
        show pyStartsWith "s2" "s" = true by decide,
        show pyStartsWith "s3" "s" = true by decide]
    rw [hfil]
    simp only [List.map_cons, List.map_nil, List.max?, List.foldl]
    rw [max_eq_left (by norm_num), max_eq_left (by norm_num)]

/-- C7 amended: with a current price supplied, when the price is
strictly above the pivot level the position is above_pivot, the
nearest_resistance value is the minimum of the resistance-level values
strictly above the price, and the nearest_support value is the maximum
over all support-level values together with the pivot (no price
filter); otherwise (price at or below the pivot) the position is
below_pivot, the nearest_support value is the maximum of the
support-level values strictly below the price, and the
nearest_resistance value is the minimum over all resistance-level
values together with the pivot. -/
theorem c7_nearest_levels (c : Candle) (ptype : String) (cp : ℚ) :
    ((((pivotLevels c ptype).lookup "pivot").getD 0 < cp →
      (calculate_pivot_points c ptype (some cp)).position =
          some "above_pivot" ∧
      ((calculate_pivot_points c ptype (some cp)).nearest_resistance).map
          Prod.snd =
        (((pivotLevels c ptype).filter
            (fun kv => pyStartsWith kv.1 "r" && decide (cp < kv.2))).map
          Prod.snd).min? ∧
      ((calculate_pivot_points c ptype (some cp)).nearest_support).map
          Prod.snd =
        (((pivotLevels c ptype).filter
            (fun kv => pyStartsWith kv.1 "s" || kv.1 == "pivot")).map
          Prod.snd).max?)) ∧
    (¬ (((pivotLevels c ptype).lookup "pivot").getD 0 < cp) →
      (calculate_pivot_points c ptype (some cp)).position =
          some "below_pivot" ∧
      ((calculate_pivot_points c ptype (some cp)).nearest_support).map
          Prod.snd =
        (((pivotLevels c ptype).filter
            (fun kv => pyStartsWith kv.1 "s" && decide (kv.2 < cp))).map
          Prod.snd).max? ∧
      ((calculate_pivot_points c ptype (some cp)).nearest_resistance).map
          Prod.snd =
        (((pivotLevels c ptype).filter
            (fun kv => pyStartsWith kv.1 "r" || kv.1 == "pivot")).map
          Prod.snd).min?) := by
  constructor <;> intro h <;>
    simp only [calculate_pivot_points] <;>
    [rw [if_pos h]; rw [if_neg h]]
  · exact ⟨rfl, pyMinByVal_map_snd _, pyMaxByVal_map_snd _⟩
  · exact ⟨rfl, pyMaxByVal_map_snd _, pyMinByVal_map_snd _⟩

/-- C7 witness: the below-pivot branch of the amended statement at
candle {100, 95, 98}, standard pivots, current price 95.33. -/
theorem c7_witness :
    (calculate_pivot_points ⟨100, 95, 98⟩ "standard"
        (some ((9533:ℚ)/100))).position = some "below_pivot" ∧
    ((calculate_pivot_points ⟨100, 95, 98⟩ "standard"
        (some ((9533:ℚ)/100))).nearest_support).map Prod.snd =
      (((pivotLevels ⟨100, 95, 98⟩ "standard").filter
          (fun kv => pyStartsWith kv.1 "s" && decide (kv.2 < (9533:ℚ)/100))).map
        Prod.snd).max? ∧
    ((calculate_pivot_points ⟨100, 95, 98⟩ "standard"
        (some ((9533:ℚ)/100))).nearest_resistance).map Prod.snd =
      (((pivotLevels ⟨100, 95, 98⟩ "standard").filter
          (fun kv => pyStartsWith kv.1 "r" || kv.1 == "pivot")).map
        Prod.snd).min? :=
  (c7_nearest_levels ⟨100, 95, 98⟩ "standard" ((9533:ℚ)/100)).2 (by
    norm_num [pivotLevels, calculate_standard_pivots, List.lookup,
      roundTo, roundHalfEven,
      show ¬ (("standard" : String) = "fibonacci") by decide,
      show ¬ (("standard" : String) = "camarilla") by decide,
      show (("pivot" : String) == "r3") = false by decide,
      show (("pivot" : String) == "r2") = false by decide,
      show (("pivot" : String) == "r1") = false by decide,
      show (("pivot" : String) == "pivot") = true by decide])


/-! ### C3: RSI at monotone extremes -/

theorem chain_zipWith_all {R : ℚ → ℚ → Prop} {f : ℚ → ℚ → ℚ} {P : ℚ → Prop}
    (hf : ∀ a b, R a b → P (f a b)) :
    ∀ (p : List ℚ), List.Chain' R p → ∀ x ∈ List.zipWith f p p.tail, P x := by
  intro p
  induction p with
  | nil => intro _ x hx; simp at hx
  | cons a t ih =>
    intro hch x hx
    cases t with
    | nil => simp at hx
    | cons b t2 =>
      rw [List.tail_cons, List.zipWith_cons_cons] at hx
      rcases List.mem_cons.mp hx with h1 | h1
      · exact h1 ▸ hf a b (List.chain'_cons.mp hch).1
      · exact ih (List.chain'_cons.mp hch).2 x (by simpa using h1)

theorem rsiGains_cons (a : ℚ) (t : List ℚ) :
    rsiGains (a :: t) =
      0 :: List.zipWith (fun prev cur => if prev < cur then cur - prev else 0)
        (a :: t) t := rfl

theorem rsiLosses_cons (a : ℚ) (t : List ℚ) :
    rsiLosses (a :: t) =
      0 :: List.zipWith (fun prev cur => if cur < prev then prev - cur else 0)
        (a :: t) t := rfl

theorem rsiGains_length (p : List ℚ) : (rsiGains p).length = p.length := by
  cases p with
  | nil => rfl
  | cons a t =>
    rw [rsiGains_cons]
    simp [List.length_zipWith]

theorem rsiLosses_length (p : List ℚ) : (rsiLosses p).length = p.length := by
  cases p with
  | nil => rfl
  | cons a t =>
    rw [rsiLosses_cons]
    simp [List.length_zipWith]

theorem rsiAvgLoss_of_inc (prices : List ℚ) (period : ℕ)
    (hch : List.Chain' (fun a b => a < b) prices) :
    rsiAvgLoss prices period = 0 := by
  have hall : ∀ x ∈ rsiLosses prices, x = 0 := by
    cases prices with
    | nil => intro x hx; simp [rsiLosses] at hx
    | cons a t =>
      intro x hx
      rw [rsiLosses_cons] at hx
      rcases List.mem_cons.mp hx with h1 | h1
      · exact h1
      · refine chain_zipWith_all (R := fun a b => a < b)
          (P := fun y => y = 0)
          (fun u v huv => ?_) (a :: t) hch x (by simpa using h1)
        rw [if_neg (by linarith)]
  rw [rsiAvgLoss, List.sum_eq_zero, zero_div]
  intro x hx
  exact hall x (List.drop_subset _ _ hx)

theorem rsiAvgGain_of_dec (prices : List ℚ) (period : ℕ)
    (hch : List.Chain' (fun a b => b < a) prices) :
    rsiAvgGain prices period = 0 := by
  have hall : ∀ x ∈ rsiGains prices, x = 0 := by
    cases prices with
    | nil => intro x hx; simp [rsiGains] at hx
    | cons a t =>
      intro x hx
      rw [rsiGains_cons] at hx
      rcases List.mem_cons.mp hx with h1 | h1
      · exact h1
      · refine chain_zipWith_all (R := fun a b => b < a)
          (P := fun y => y = 0)
          (fun u v huv => ?_) (a :: t) hch x (by simpa using h1)
        rw [if_neg (by linarith)]
  rw [rsiAvgGain, List.sum_eq_zero, zero_div]
  intro x hx
  exact hall x (List.drop_subset _ _ hx)

theorem window_pos_of_tail_pos (g : List ℚ) (rest : List ℚ) (period : ℕ)
    (hg : g = 0 :: rest) (hrest : ∀ x ∈ rest, 0 < x)
    (hlen : period + 1 ≤ g.length) (hp : 1 ≤ period) :
    0 < (lastWindow g period).sum / (period : ℚ) := by
  have hk : ∃ m, g.length - period = m + 1 := ⟨g.length - period - 1, by omega⟩
  obtain ⟨m, hm⟩ := hk
  have hwin : lastWindow g period = rest.drop m := by
    rw [lastWindow, hg] at *
    rw [hm, List.drop_succ_cons]
  have hpos : ∀ x ∈ lastWindow g period, 0 < x := by
    intro x hx
    rw [hwin] at hx
    exact hrest x (List.drop_subset _ _ hx)
  have hlw : (lastWindow g period).length = period := by
    rw [lastWindow, List.length_drop]
    omega
  have hne : lastWindow g period ≠ [] := by
    intro hemp
    rw [hemp] at hlw
    simp at hlw
    omega
  have hsum : 0 < (lastWindow g period).sum := List.sum_pos _ hpos hne
  have hpq : (0:ℚ) < (period : ℚ) := by
    exact_mod_cast Nat.lt_of_lt_of_le Nat.zero_lt_one hp
  exact div_pos hsum hpq

theorem rsiAvgGain_pos_of_inc (prices : List ℚ) (period : ℕ)
    (hch : List.Chain' (fun a b => a < b) prices)
    (hp : 1 ≤ period) (hlen : period + 1 ≤ prices.length) :
    0 < rsiAvgGain prices period := by
  cases prices with
  | nil => simp at hlen
  | cons a t =>
    rw [rsiAvgGain]
    refine window_pos_of_tail_pos _ _ period (rsiGains_cons a t) ?_ ?_ hp
    · intro x hx
      refine chain_zipWith_all (R := fun a b => a < b)
        (P := fun y => 0 < y)
        (fun u v huv => ?_) (a :: t) hch x (by simpa using hx)
      rw [if_pos huv]
      linarith
    · rw [rsiGains_length]
      exact hlen

theorem rsiAvgLoss_pos_of_dec (prices : List ℚ) (period : ℕ)
    (hch : List.Chain' (fun a b => b < a) prices)
    (hp : 1 ≤ period) (hlen : period + 1 ≤ prices.length) :
    0 < rsiAvgLoss prices period := by
  cases prices with
  | nil => simp at hlen
  | cons a t =>
    rw [rsiAvgLoss]
    refine window_pos_of_tail_pos _ _ period (rsiLosses_cons a t) ?_ ?_ hp
    · intro x hx
      refine chain_zipWith_all (R := fun a b => b < a)
        (P := fun y => 0 < y)
        (fun u v huv => ?_) (a :: t) hch x (by simpa using hx)
      rw [if_pos huv]
      linarith
    · rw [rsiLosses_length]
      exact hlen

theorem rsiValue_eq_100 (prices : List ℚ) (period : ℕ)
    (hg : 0 < rsiAvgGain prices period) (hl : rsiAvgLoss prices period = 0) :
    rsiValue prices period = .fin 100 := by
  rw [rsiValue, hl]
  have h1 : FVal.div (.fin (rsiAvgGain prices period)) (.fin 0) = .pinf := by
    simp [FVal.div, hg.ne', hg]
  rw [h1]
  show FVal.sub (.fin 100) (FVal.div (.fin 100) (FVal.add (.fin 1) .pinf)) =
    .fin 100
  have h2 : FVal.add (.fin 1) .pinf = .pinf := rfl
  have h3 : FVal.div (.fin 100) .pinf = .fin 0 := rfl
  rw [h2, h3]
  show FVal.fin (100 + -0) = .fin 100
  norm_num

theorem rsiValue_eq_0 (prices : List ℚ) (period : ℕ)
    (hg : rsiAvgGain prices period = 0) (hl : 0 < rsiAvgLoss prices period) :
    rsiValue prices period = .fin 0 := by
  rw [rsiValue, hg]
  have h1 : FVal.div (.fin 0) (.fin (rsiAvgLoss prices period)) = .fin 0 := by
    simp [FVal.div, hl.ne']
  rw [h1]
  show FVal.sub (.fin 100) (FVal.div (.fin 100) (FVal.fin (1 + 0))) = .fin 0
  norm_num [FVal.div, FVal.sub, FVal.neg, FVal.add]

theorem calculate_rsi_ok (prices : List ℚ) (period : ℕ) (ob os : ℚ)
    (h : period + 1 ≤ prices.length) :
    calculate_rsi prices period ob os =
      .ok { rsi := FVal.roundF 2 (rsiValue prices period), period := period,
            signal := get_rsi_signal (rsiValue prices period) ob os } := by
  simp only [calculate_rsi]
  rw [if_neg (by omega)]

/-- C3: a strictly increasing price series of length at least period+1
produces no error and RSI exactly 100 (the zero average loss makes RS
infinite and the float arithmetic yields the limiting value); a
strictly decreasing one produces RSI exactly 0. -/
theorem c3_rsi_extremes (prices : List ℚ) (period : ℕ) (ob os : ℚ)
    (hp : 1 ≤ period) (hlen : period + 1 ≤ prices.length) :
    (List.Chain' (fun a b => a < b) prices →
      ∃ out, calculate_rsi prices period ob os = .ok out ∧
        out.rsi = FVal.fin 100) ∧
    (List.Chain' (fun a b => b < a) prices →
      ∃ out, calculate_rsi prices period ob os = .ok out ∧
        out.rsi = FVal.fin 0) := by
  constructor <;> intro hch <;>
    refine ⟨_, calculate_rsi_ok prices period ob os hlen, ?_⟩
  · rw [rsiValue_eq_100 prices period
      (rsiAvgGain_pos_of_inc prices period hch hp hlen)
      (rsiAvgLoss_of_inc prices period hch)]
    show FVal.fin (roundTo 2 100) = FVal.fin 100
    rw [show (100:ℚ) = ((100:ℤ):ℚ) by norm_num, roundTo_intCast]
  · rw [rsiValue_eq_0 prices period
      (rsiAvgGain_of_dec prices period hch)
      (rsiAvgLoss_pos_of_dec prices period hch hp hlen)]
    show FVal.fin (roundTo 2 0) = FVal.fin 0
    rw [show (0:ℚ) = ((0:ℤ):ℚ) by norm_num, roundTo_intCast]

/-- C3 witness: the increasing series [1,2,3] and the decreasing series
[3,2,1] with period 2. -/
theorem c3_witness :
    (∃ out, calculate_rsi [1, 2, 3] 2 70 30 = .ok out ∧
      out.rsi = FVal.fin 100) ∧
    (∃ out, calculate_rsi [3, 2, 1] 2 70 30 = .ok out ∧
      out.rsi = FVal.fin 0) :=
  ⟨(c3_rsi_extremes [1, 2, 3] 2 70 30 (by norm_num) (by norm_num)).1
      (by norm_num [List.chain'_cons]),
   (c3_rsi_extremes [3, 2, 1] 2 70 30 (by norm_num) (by norm_num)).2
      (by norm_num [List.chain'_cons])⟩


/-! ### C5: MACD signal resolution -/

theorem ewmAux_length (alpha : ℚ) (acc : ℚ) (l : List ℚ) :
    (ewmAux alpha acc l).length = l.length := by
  induction l generalizing acc with
  | nil => rfl
  | cons x xs ih => simp [ewmAux, ih]

theorem ewmMean_length (alpha : ℚ) (l : List ℚ) :
    (ewmMean alpha l).length = l.length := by
  cases l with
  | nil => rfl
  | cons x xs => simp [ewmMean, ewmAux_length]

theorem macdLine_length (prices : List ℚ) (f s : ℕ) :
    (macdLine prices f s).length = prices.length := by
  simp [macdLine, List.length_zipWith, ewmMean_length]

theorem macdSignalLine_length (prices : List ℚ) (f s g : ℕ) :
    (macdSignalLine prices f s g).length = prices.length := by
  simp [macdSignalLine, ewmMean_length, macdLine_length]

theorem macdHistogram_length (prices : List ℚ) (f s g : ℕ) :
    (macdHistogram prices f s g).length = prices.length := by
  simp [macdHistogram, List.length_zipWith, macdLine_length,
    macdSignalLine_length]

theorem macdHistogram_getD (prices : List ℚ) (f s g i : ℕ)
    (h : i < prices.length) :
    (macdHistogram prices f s g).getD i 0 =
      (macdLine prices f s).getD i 0 -
        (macdSignalLine prices f s g).getD i 0 := by
  have h1 : i < (macdLine prices f s).length := by
    rw [macdLine_length]; exact h
  have h2 : i < (macdSignalLine prices f s g).length := by
    rw [macdSignalLine_length]; exact h
  have h3 : i < (macdHistogram prices f s g).length := by
    rw [macdHistogram_length]; exact h
  rw [List.getD_eq_getElem _ _ h3, List.getD_eq_getElem _ _ h1,
    List.getD_eq_getElem _ _ h2]
  simp [macdHistogram, List.getElem_zipWith]

/-- C5: for a long-enough series, the crossover_signal field equals the
claim's resolution procedure applied to the last two values of the MACD
line minus signal line difference (the histogram): sign-change
crossover first, then histogram momentum, then histogram sign, else
neutral. -/
theorem c5_macd_signal (prices : List ℚ) (fast slow sig : ℕ)
    (hs : 1 ≤ slow) (hg : 1 ≤ sig) (hlen : slow + sig ≤ prices.length) :
    (calculate_macd prices fast slow sig).map (fun o => o.crossover_signal) =
      .ok (macdSignalSpec
        ((macdHistogram prices fast slow sig).getD (prices.length - 2) 0)
        ((macdHistogram prices fast slow sig).getD (prices.length - 1) 0)) := by
  simp only [calculate_macd]
  rw [if_neg (by omega)]
  simp only [Except.map]
  rw [macdHistogram_getD prices fast slow sig (prices.length - 2) (by omega),
    macdHistogram_getD prices fast slow sig (prices.length - 1) (by omega)]
  exact congrArg Except.ok (macdSignalCode_eq_spec _ _ _ _)

/-- C5 witness: the prices [1,2,3,4] with fast 2, slow 3, signal 1. -/
theorem c5_witness :
    (calculate_macd [1, 2, 3, 4] 2 3 1).map (fun o => o.crossover_signal) =
      .ok (macdSignalSpec
        ((macdHistogram [1, 2, 3, 4] 2 3 1).getD 2 0)
        ((macdHistogram [1, 2, 3, 4] 2 3 1).getD 3 0)) :=
  c5_macd_signal [1, 2, 3, 4] 2 3 1 (by norm_num) (by norm_num) (by norm_num)


/-! ### C10: stochastic on a zero-range window -/

theorem stochKList_length (candles : List Candle) (k : ℕ) :
    (stochKList candles k).length = candles.length := by
  simp [stochKList]

theorem getD_map_range {α : Type} (f : ℕ → α) (n i : ℕ) (d : α) (h : i < n) :
    ((List.range n).map f).getD i d = f i := by
  rw [List.getD_eq_getElem _ _ (by simpa using h)]
  simp

theorem stochKList_getD_last (candles : List Candle) (k : ℕ)
    (hk : 1 ≤ k) (hkn : k ≤ candles.length) (hn : 1 ≤ candles.length)
    (hz : highMax candles k (candles.length - 1) =
      lowMin candles k (candles.length - 1))
    (hc : (cAt candles (candles.length - 1)).close =
      lowMin candles k (candles.length - 1)) :
    (stochKList candles k).getD (candles.length - 1) .nan = FVal.nan := by
  rw [stochKList, getD_map_range _ _ _ _ (by omega), if_neg (by omega), hc, hz]
  simp [FVal.div, FVal.mul]

theorem fvalRollMean_getD_last (l : List FVal) (d : ℕ)
    (hd : 1 ≤ d) (hdn : d ≤ l.length) (hn : 1 ≤ l.length)
    (hl : l.getD (l.length - 1) .nan = FVal.nan) :
    (fvalRollMean l d).getD (l.length - 1) .nan = FVal.nan := by
  rw [fvalRollMean, getD_map_range _ _ _ _ (by omega), if_neg (by omega)]
  have htake : l.take (l.length - 1 + 1) = l := by
    rw [show l.length - 1 + 1 = l.length by omega, List.take_length]
  rw [htake]
  have hidx0 : l.length - 1 + 1 - d = l.length - d := by omega
  rw [hidx0]
  have hlen2 : d - 1 < (l.drop (l.length - d)).length := by
    rw [List.length_drop]
    omega
  have hnanmem : FVal.nan ∈ l.drop (l.length - d) := by
    have h1 : l.length - 1 < l.length := by omega
    have h2 : l[l.length - 1] = FVal.nan := by
      rw [List.getD_eq_getElem _ _ h1] at hl
      exact hl
    refine List.mem_iff_getElem.2 ⟨d - 1, hlen2, ?_⟩
    rw [List.getElem_drop]
    have h4 : l.length - d + (d - 1) = l.length - 1 := by omega
    simp only [h4]
    exact h2
  rw [fsum_eq_nan_of_mem _ hnanmem]
  rfl

theorem stochSignal_nan (pk pd : FVal) (ob os : ℚ) :
    stochSignal pk pd .nan .nan ob os = "neutral" := by
  simp [stochSignal, FVal.gtb, FVal.geb, FVal.ltb_nan_left,
    FVal.ltb_nan_right, FVal.leb_nan_left, FVal.leb_nan_right]

theorem calculate_stochastic_ok (candles : List Candle) (k d : ℕ)
    (ob os : ℚ) (h : k + d - 1 ≤ candles.length) :
    calculate_stochastic candles k d ob os =
      .ok { k_percent := FVal.roundF 2
              ((stochKList candles k).getD (candles.length - 1) .nan),
            d_percent := FVal.roundF 2
              ((fvalRollMean (stochKList candles k) d).getD
                (candles.length - 1) .nan),
            signal := stochSignal
              ((stochKList candles k).getD (candles.length - 2) .nan)
              ((fvalRollMean (stochKList candles k) d).getD
                (candles.length - 2) .nan)
              ((stochKList candles k).getD (candles.length - 1) .nan)
              ((fvalRollMean (stochKList candles k) d).getD
                (candles.length - 1) .nan) ob os,
            k_period := k, d_period := d,
            overbought := ob, oversold := os } := by
  simp only [calculate_stochastic]
  rw [if_neg (by omega)]

/-- C10 amended: when the highest high equals the lowest low over the
last k_period candles AND the last close equals that common value, the
unguarded 0/0 makes %K (and hence %D) NaN, every comparison against NaN
is false, no error is raised and the signal is neutral.  (Without the
close condition the division is v/0 = an infinity, not NaN, and the
threshold comparisons fire - see the counterexample.) -/
theorem c10_flat_window_neutral (candles : List Candle) (k d : ℕ)
    (ob os : ℚ) (hk : 1 ≤ k) (hd : 1 ≤ d)
    (hlen : k + d - 1 ≤ candles.length) (h2 : 2 ≤ candles.length)
    (hz : highMax candles k (candles.length - 1) =
      lowMin candles k (candles.length - 1))
    (hc : (cAt candles (candles.length - 1)).close =
      lowMin candles k (candles.length - 1)) :
    ∃ out, calculate_stochastic candles k d ob os = .ok out ∧
      out.k_percent = FVal.nan ∧ out.d_percent = FVal.nan ∧
      out.signal = "neutral" := by
  have hk' : k ≤ candles.length := by omega
  have hd' : d ≤ candles.length := by omega
  have hK := stochKList_getD_last candles k hk hk' (by omega) hz hc
  have hK2 : (stochKList candles k).getD
      ((stochKList candles k).length - 1) .nan = FVal.nan := by
    rw [stochKList_length]
    exact hK
  have hD := fvalRollMean_getD_last (stochKList candles k) d hd
    (by rw [stochKList_length]; exact hd')
    (by rw [stochKList_length]; omega) hK2
  rw [stochKList_length] at hD
  refine ⟨_, calculate_stochastic_ok candles k d ob os hlen, ?_, ?_, ?_⟩
  · show FVal.roundF 2
      ((stochKList candles k).getD (candles.length - 1) .nan) = FVal.nan
    rw [hK]
    rfl
  · show FVal.roundF 2
      ((fvalRollMean (stochKList candles k) d).getD
        (candles.length - 1) .nan) = FVal.nan
    rw [hD]
    rfl
  · show stochSignal _ _
      ((stochKList candles k).getD (candles.length - 1) .nan)
      ((fvalRollMean (stochKList candles k) d).getD
        (candles.length - 1) .nan) ob os = "neutral"
    rw [hK, hD]
    exact stochSignal_nan _ _ ob os

/-- C10 fails as stated: the three candles below have highest high =
lowest low = 100 over the last 2 candles, yet the last close 105 makes
%K = +infinity (5/0), not NaN; the overbought comparisons against
+infinity are true and the signal is "overbought", not "neutral". -/
theorem c10_counterexample :
    highMax [⟨10, 5, 7⟩, ⟨100, 100, 105⟩, ⟨100, 100, 105⟩] 2 2 =
      lowMin [⟨10, 5, 7⟩, ⟨100, 100, 105⟩, ⟨100, 100, 105⟩] 2 2 ∧
    calculate_stochastic [⟨10, 5, 7⟩, ⟨100, 100, 105⟩, ⟨100, 100, 105⟩]
        2 2 80 20 =
      .ok { k_percent := .pinf, d_percent := .pinf, signal := "overbought",
            k_period := 2, d_period := 2, overbought := 80, oversold := 20 } ∧
    ("overbought" ≠ "neutral") ∧ (FVal.pinf ≠ FVal.nan) := by
  refine ⟨?_, ?_, by decide, by decide⟩
  · norm_num [highMax, lowMin, stochWindow, qListMax, qListMin]
  · norm_num [calculate_stochastic, stochKList, fvalRollMean, stochWindow,
      lowMin, highMax, qListMin, qListMax, cAt, fsum, stochSignal,
      FVal.mul, FVal.div, FVal.add, FVal.ltb, FVal.leb, FVal.gtb, FVal.geb,
      FVal.roundF, List.range, List.range.loop]

/-- C10 witness: three flat candles {5,5,5} with k_period 2, d_period 2. -/
theorem c10_witness :
    ∃ out, calculate_stochastic [⟨5, 5, 5⟩, ⟨5, 5, 5⟩, ⟨5, 5, 5⟩]
        2 2 80 20 = .ok out ∧
      out.k_percent = FVal.nan ∧ out.d_percent = FVal.nan ∧
      out.signal = "neutral" :=
  c10_flat_window_neutral [⟨5, 5, 5⟩, ⟨5, 5, 5⟩, ⟨5, 5, 5⟩] 2 2 80 20
    (by norm_num) (by norm_num) (by norm_num) (by norm_num)
    (by norm_num [highMax, lowMin, stochWindow, qListMax, qListMin])
    (by norm_num [cAt, lowMin, stochWindow, qListMin])


/-! ### C6: Bollinger percent_b at the bands -/

theorem roundToR_zero : roundToR 3 (0:ℝ) = 0 := by
  have h := roundToR_cast_div_pow 3 0
  norm_num at h
  exact h

theorem roundToR_one : roundToR 3 (1:ℝ) = 1 := by
  have h := roundToR_cast_div_pow 3 1000
  norm_num at h
  exact h

theorem roundToR_half : roundToR 3 ((1:ℝ)/2) = 1/2 := by
  have h := roundToR_cast_div_pow 3 500
  norm_num at h
  exact h

theorem calculate_bollinger_bands_ok (prices : List ℚ) (period : ℕ)
    (std_dev : ℚ) (h : period ≤ prices.length) :
    calculate_bollinger_bands prices period std_dev =
      .ok { upper_band := roundToR 2 (bollUpper prices period std_dev),
            middle_band := roundToR 2 ((bollMiddle prices period : ℚ) : ℝ),
            lower_band := roundToR 2 (bollLower prices period std_dev),
            bandwidth := roundToR 2 (bollBandwidth prices period std_dev),
            percent_b := roundToR 3 (bollPercentB prices period std_dev),
            current_price := roundTo 2 (lastD prices 0),
            signal := bollSignal (bollPercentB prices period std_dev),
            period := period, std_dev := std_dev } := by
  simp only [calculate_bollinger_bands]
  rw [if_neg (by omega)]

/-- C6 amended: whenever the band width is nonzero, the returned
percent_b is exactly 0 when the last price equals the computed lower
band and exactly 1 when it equals the upper band; when the band width
is exactly zero (so the price can equal both bands at once), percent_b
is the guard value 0.5, not 0 or 1. -/
theorem c6_percent_b (prices : List ℚ) (period : ℕ) (std_dev : ℚ)
    (hp : 2 ≤ period) (hlen : period ≤ prices.length) :
    ∃ out, calculate_bollinger_bands prices period std_dev = .ok out ∧
      ((bollBandwidth prices period std_dev ≠ 0 ∧
          ((lastD prices 0 : ℚ) : ℝ) = bollLower prices period std_dev) →
        out.percent_b = 0) ∧
      ((bollBandwidth prices period std_dev ≠ 0 ∧
          ((lastD prices 0 : ℚ) : ℝ) = bollUpper prices period std_dev) →
        out.percent_b = 1) ∧
      (bollBandwidth prices period std_dev = 0 → out.percent_b = 1/2) := by
  refine ⟨_, calculate_bollinger_bands_ok prices period std_dev hlen,
    ?_, ?_, ?_⟩
  · rintro ⟨hbw, hlow⟩
    show roundToR 3 (bollPercentB prices period std_dev) = 0
    rw [bollPercentB, if_pos hbw, hlow, sub_self, zero_div, roundToR_zero]
  · rintro ⟨hbw, hup⟩
    show roundToR 3 (bollPercentB prices period std_dev) = 1
    rw [bollPercentB, if_pos hbw, hup]
    rw [show bollUpper prices period std_dev -
        bollLower prices period std_dev =
        bollBandwidth prices period std_dev from rfl]
    rw [div_self hbw, roundToR_one]
  · intro hbw0
    show roundToR 3 (bollPercentB prices period std_dev) = 1/2
    rw [bollPercentB, if_neg (fun hne => hne hbw0), roundToR_half]

/-- C6 fails as stated: for the constant prices [5,5] with period 2 and
multiplier 2, the standard deviation is 0, the last price equals both
the lower and the upper band, and percent_b is the zero-bandwidth guard
value 0.5 - neither the 0 nor the 1 the claim requires for any
period/std_dev combination. -/
theorem c6_counterexample :
    ((lastD [5, 5] 0 : ℚ) : ℝ) = bollLower [5, 5] 2 2 ∧
    ((lastD [5, 5] 0 : ℚ) : ℝ) = bollUpper [5, 5] 2 2 ∧
    ∃ out, calculate_bollinger_bands [5, 5] 2 2 = .ok out ∧
      out.percent_b = 1/2 ∧ ((1:ℝ)/2 ≠ 0 ∧ (1:ℝ)/2 ≠ 1) := by
  have hvar : bollVar [5, 5] 2 = 0 := by
    norm_num [bollVar, bollMiddle, lastWindow]
  have hstd : bollStd [5, 5] 2 = 0 := by
    rw [bollStd, hvar]
    push_cast
    exact Real.sqrt_zero
  have hmid : bollMiddle [5, 5] 2 = 5 := by
    norm_num [bollMiddle, lastWindow]
  have hlow : bollLower [5, 5] 2 2 = 5 := by
    rw [bollLower, hstd, hmid]
    norm_num
  have hup : bollUpper [5, 5] 2 2 = 5 := by
    rw [bollUpper, hstd, hmid]
    norm_num
  have hbw : bollBandwidth [5, 5] 2 2 = 0 := by
    rw [bollBandwidth, hup, hlow]
    norm_num
  have hlast : lastD [5, 5] 0 = 5 := by norm_num [lastD]
  refine ⟨?_, ?_, _, calculate_bollinger_bands_ok [5, 5] 2 2 (by norm_num),
    ?_, by norm_num, by norm_num⟩
  · rw [hlow, hlast]
    norm_num
  · rw [hup, hlast]
    norm_num
  · show roundToR 3 (bollPercentB [5, 5] 2 2) = 1/2
    rw [bollPercentB, if_neg (fun hne => hne hbw), roundToR_half]

/-- C6 witness: the amended statement at prices [5,4,3], period 3,
multiplier 1, where the last price 3 equals the lower band 3 and the
band width is 2. -/
theorem c6_witness :
    ∃ out, calculate_bollinger_bands [5, 4, 3] 3 1 = .ok out ∧
      out.percent_b = 0 := by
  have hvar : bollVar [5, 4, 3] 3 = 1 := by
    norm_num [bollVar, bollMiddle, lastWindow]
  have hstd : bollStd [5, 4, 3] 3 = 1 := by
    rw [bollStd, hvar]
    push_cast
    exact Real.sqrt_one
  have hmid : bollMiddle [5, 4, 3] 3 = 4 := by
    norm_num [bollMiddle, lastWindow]
  have hlow : bollLower [5, 4, 3] 3 1 = 3 := by
    rw [bollLower, hstd, hmid]
    norm_num
  have hup : bollUpper [5, 4, 3] 3 1 = 5 := by
    rw [bollUpper, hstd, hmid]
    norm_num
  have hbw : bollBandwidth [5, 4, 3] 3 1 ≠ 0 := by
    rw [bollBandwidth, hup, hlow]
    norm_num
  have hlast : lastD [5, 4, 3] 0 = 3 := by norm_num [lastD]
  obtain ⟨out, he, h1, h2, h3⟩ := c6_percent_b [5, 4, 3] 3 1
    (by norm_num) (by norm_num)
  refine ⟨out, he, h1 ⟨hbw, ?_⟩⟩
  rw [hlow, hlast]
  norm_num

end TechInd
